import Mathlib

/-!
Verification of the mailstream IMAP client core.

The repository contains two variants of the `Client` class:
a variant in `src/client.ts` (modelled here with the suffix `A`) that keeps a
`numMessages` baseline, a `mailListeners` side list next to the inherited
EventEmitter registry, and publishes after a `Promise.all` join; and a variant
(modelled with the suffix `B`) that keeps a `seenUIDs` dedup set and emits each
record inside its own per-message end handler.

Asynchronous engine behaviour (search results, the stream of fetch events, the
order in which per-message MIME decode tasks complete) is passed in as explicit
script data, and the MIME decoding service (`simpleParser`) is an explicit
fallible function parameter, so every operation is a pure function of its
inputs.
-/

set_option autoImplicit false

/-- A byte sequence, modelling a Node `Buffer`. -/
abbrev ByteSeq := List Nat

deriving instance DecidableEq for Except

/-- One parsed address, as produced by the mailparser collaborator. -/
structure EmailAddress where
  name : String
  address : String
deriving Repr, DecidableEq

/-- mailparser address object: a wrapper around a list of addresses. -/
structure AddressObject where
  value : List EmailAddress
deriving Repr, DecidableEq

/-- mailparser from/to field: `AddressObject | AddressObject[]`. -/
inductive AddrField where
  | one (obj : AddressObject)
  | many (objs : List AddressObject)
deriving Repr, DecidableEq

/-- Structured fields returned by the MIME decoding service (`simpleParser`).
Dates are modelled as epoch numbers. -/
structure ParsedMail where
  fromField : Option AddrField
  toField : Option AddrField
  subject : Option String
  date : Option Nat
  text : Option String
  html : Option String
deriving Repr, DecidableEq

/-- The externally visible mail record (`Mail` in `types.ts`). -/
structure Mail where
  uid : Nat
  fromAddrs : List EmailAddress
  toAddrs : List EmailAddress
  subject : String
  date : Nat
  plain : String
  html : Option String
deriving Repr, DecidableEq

/-- Error outcomes, tagged by the code path that rejects.  `notConnected` and
`noMailbox` are the literal guard throws; `connection` is a reject from the
engine error event during connect; `mailbox` a reject from an `openBox`
callback error; `fetch` a reject from a search callback error or a fetch error
event; `decode` a reject propagated out of `Promise.all` from a failed
`simpleParser` call. -/
inductive ClientError where
  | notConnected
  | noMailbox
  | connection (e : String)
  | mailbox (e : String)
  | fetch (e : String)
  | decode (e : String)
deriving Repr, DecidableEq

/-- Mailbox data from an `openBox` response (`Box` with its message counts). -/
structure Box where
  name : String
  total : Nat
  newCount : Nat
  unseen : Nat
deriving Repr, DecidableEq

/-- Which fetch body part a chunk belongs to: `info.which === "TEXT"` is the
text body, anything else the header fields part. -/
inductive PartKind where
  | header
  | text
deriving Repr, DecidableEq

/-- One `data` chunk of a body stream of a fetched message. -/
structure Chunk where
  part : PartKind
  bytes : ByteSeq
deriving Repr, DecidableEq

/-- The events the engine delivers for one fetched message: its body stream
chunks in arrival order, and the uid carried by the attributes event (none if
the server omitted the uid attribute). -/
structure MsgEvents where
  chunks : List Chunk
  attrUid : Option Nat
deriving Repr, DecidableEq

/-- The uid the client reads for a message: `attrs.uid`, defaulting to 0 when
absent (`uid || 0` resp. `parseInt(messageData.messageId!) || 0`). -/
def msgUid (m : MsgEvents) : Nat :=
  m.attrUid.getD 0

/-- Script of one fetch issued to the engine: the message event list in the
order the `message` events are observed, the order in which the per-message
decode tasks complete (indices into `msgs`), and whether the stream terminates
with an error event instead of end. -/
structure FetchScript where
  msgs : List MsgEvents
  completion : List Nat
  fetchError : Option String
deriving Repr, DecidableEq

/-- The MIME decoding collaborator: raw bytes to structured fields, fallible. -/
def Parser := ByteSeq → Except String ParsedMail

/-- `extractAddresses` from both client variants. -/
def extractAddresses : Option AddrField → List EmailAddress
  | none => []
  | some (.one obj) => obj.value
  | some (.many objs) => (objs.map AddressObject.value).flatten

/-- JS `Promise.all` over already-created promises: all fulfilled yields the
results in array order; otherwise rejects and no result list is produced. -/
def promiseAll {ε α : Type} : List (Except ε α) → Except ε (List α)
  | [] => .ok []
  | .error e :: _ => .error e
  | .ok a :: xs =>
    match promiseAll xs with
    | .error e => .error e
    | .ok rest => .ok (a :: rest)

/-! ### Variant A: `src/client.ts` -/

/-- Client state for variant A: whether `this.client` has been assigned,
whether `end()` has been called on the engine, the `currentBox` field and the
`numMessages` baseline. -/
structure ClientStateA where
  clientSet : Bool
  ended : Bool
  currentBox : Option Box
  numMessages : Nat
deriving Repr, DecidableEq

/-- `processSingleMessage`: accumulate every body chunk of the message into one
buffer, run `simpleParser` on the concatenation, and build the `Mail` record;
a parser throw rejects this message promise. `now` models `new Date()`. -/
def processSingleMessage (parse : Parser) (now : Nat) (m : MsgEvents) : Except String Mail :=
  match parse ((m.chunks.map Chunk.bytes).flatten : ByteSeq) with
  | .error e => .error e
  | .ok parsed =>
    .ok
      { uid := m.attrUid.getD 0
        fromAddrs := extractAddresses parsed.fromField
        toAddrs := extractAddresses parsed.toField
        subject := parsed.subject.getD ""
        date := parsed.date.getD now
        plain := parsed.text.getD ""
        html :=
          match parsed.html with
          | some h => if h = "" then none else some h
          | none => none }

/-- Result of one variant A unseen-mail cycle: the promise outcome, how many
times the fetch primitive was invoked, and the records emitted, in emission
order. -/
structure CycleResultA where
  outcome : Except ClientError Unit
  fetchCalls : Nat
  published : List Mail
deriving Repr, DecidableEq

/-- `getUnseenMails` of variant A.  Guard on `this.client`; search; empty
result resolves without a fetch; otherwise one fetch, whose error event
rejects; on end, `Promise.all` over the per-message promises — any decode
failure rejects the whole cycle — and on success every record is emitted in
array order.  The `completion` field of the script is not consulted:
`Promise.all` collects results by array index. -/
def getUnseenMailsA (parse : Parser) (now : Nat) (clientSet : Bool)
    (searchResult : Except String (List Nat)) (script : FetchScript) : CycleResultA :=
  if clientSet = false then
    { outcome := .error .notConnected, fetchCalls := 0, published := [] }
  else
    match searchResult with
    | .error e => { outcome := .error (.fetch e), fetchCalls := 0, published := [] }
    | .ok uids =>
      if uids.length = 0 then
        { outcome := .ok (), fetchCalls := 0, published := [] }
      else
        match script.fetchError with
        | some e => { outcome := .error (.fetch e), fetchCalls := 1, published := [] }
        | none =>
          match promiseAll (script.msgs.map (processSingleMessage parse now)) with
          | .error e => { outcome := .error (.decode e), fetchCalls := 1, published := [] }
          | .ok mails => { outcome := .ok (), fetchCalls := 1, published := mails }

/-- Result of a variant A push-triggered cycle (`fetchNewMessages`): outcome,
the sequence range handed to `seq.fetch` (none when no fetch was issued), the
`numMessages` baseline afterwards, and the emitted records. -/
structure PushResultA where
  outcome : Except ClientError Unit
  range : Option (Nat × Nat)
  numMessagesAfter : Nat
  published : List Mail
deriving Repr, DecidableEq

/-- `fetchNewMessages(numNew)` of variant A, as triggered by the engine `mail`
event wired in `setupListeners`.  With no client it returns silently; otherwise
it fetches the sequence range from `numMessages + 1` to `numMessages + numNew`;
a fetch error event rejects with the baseline untouched; on end, a failed
`Promise.all` rejects with the baseline untouched; on success the records are
emitted and only then is `numMessages` advanced by `numNew`. -/
def fetchNewMessages (parse : Parser) (now : Nat) (clientSet : Bool)
    (numMessages : Nat) (numNew : Nat) (script : FetchScript) : PushResultA :=
  if clientSet = false then
    { outcome := .ok (), range := none, numMessagesAfter := numMessages, published := [] }
  else
    match script.fetchError with
    | some e =>
      { outcome := .error (.fetch e), range := some (numMessages + 1, numMessages + numNew),
        numMessagesAfter := numMessages, published := [] }
    | none =>
      match promiseAll (script.msgs.map (processSingleMessage parse now)) with
      | .error e =>
        { outcome := .error (.decode e), range := some (numMessages + 1, numMessages + numNew),
          numMessagesAfter := numMessages, published := [] }
      | .ok mails =>
        { outcome := .ok (), range := some (numMessages + 1, numMessages + numNew),
          numMessagesAfter := numMessages + numNew, published := mails }

/-- `switchMailbox` of variant A: no connection guard at all — the `openBox`
call goes straight to the engine; an error callback rejects (a mailbox error)
leaving `currentBox` unchanged, success replaces `currentBox`. -/
def switchMailbox (boxResp : Except String Box) (currentBox : Option Box) :
    Except ClientError Box × Option Box :=
  match boxResp with
  | .error e => (.error (.mailbox e), currentBox)
  | .ok box => (.ok box, some box)

/-- `close()` of variant A: calls `end()` on the engine and resolves.  No field
of the client is reset — `this.client` and `currentBox` keep their values. -/
def close (st : ClientStateA) : ClientStateA × Except ClientError Unit :=
  ({ st with ended := true }, .ok ())

/-- Script of the engine behaviour during `connect`: the outcome of the
transport/auth handshake (the error event versus the ready event), and the
`openBox` response afterwards. -/
structure ConnectScript where
  handshake : Except String Unit
  boxResp : Except String Box
deriving Repr, DecidableEq

/-- `connect` of variant A (run by `create`): an engine error event before
ready rejects with that connection error; after ready, an `openBox` error
rejects with that mailbox error; otherwise the promise resolves with the state
populated from the selection response. -/
def connect (script : ConnectScript) : Except ClientError ClientStateA :=
  match script.handshake with
  | .error e => .error (.connection e)
  | .ok _ =>
    match script.boxResp with
    | .error e => .error (.mailbox e)
    | .ok box =>
      .ok { clientSet := true, ended := false, currentBox := some box,
            numMessages := box.total }

/-- `Client.create(config)`: constructs the client and awaits `connect`. -/
def create (script : ConnectScript) : Except ClientError ClientStateA :=
  connect script

/-! ### Subscriber registry of variant A -/

/-- The two places variant A tracks `mail` subscribers: the registry of the
inherited EventEmitter (filled by `super.on`), and the `mailListeners` array
(filled by `push` in the overridden `on`). -/
structure ListenerRegistry where
  emitterListeners : List String
  mailListeners : List String
deriving Repr, DecidableEq

/-- `on("mail", listener)`: registers the listener with the EventEmitter and
also pushes it onto `mailListeners`. -/
def onMail (r : ListenerRegistry) (l : String) : ListenerRegistry :=
  { emitterListeners := r.emitterListeners ++ [l],
    mailListeners := r.mailListeners ++ [l] }

/-- Delivering one record: `this.emit("mail", mail)` invokes every EventEmitter
listener in registration order, then `mailListeners.forEach` invokes every
listed listener. -/
def emitMail (r : ListenerRegistry) (mail : Mail) : List (String × Mail) :=
  r.emitterListeners.map (fun l => (l, mail)) ++ r.mailListeners.map (fun l => (l, mail))

/-- The `mails.forEach` publish loop at the end of a cycle. -/
def publishCycle (r : ListenerRegistry) (mails : List Mail) : List (String × Mail) :=
  (mails.map (emitMail r)).flatten

/-- How many times a given subscriber is invoked over one publish loop. -/
def invocationCount (r : ListenerRegistry) (mails : List Mail) (l : String) : Nat :=
  ((publishCycle r mails).filter (fun p => p.1 = l)).length

/-! ### Variant B: the `seenUIDs` client -/

/-- Client state for variant B: the client handle, the selected mailbox and
the `seenUIDs` set of already-processed uids (a `Set<number>`, modelled as a
duplicate-free insertion-ordered list). -/
structure StateB where
  clientSet : Bool
  currentBox : Option Box
  seenUIDs : List Nat
deriving Repr, DecidableEq

/-- `Set.add` on the modelled `seenUIDs` set. -/
def setAdd (s : List Nat) (u : Nat) : List Nat :=
  if s.contains u then s else s ++ [u]

/-- The per-message end handler body of variant B `fetchMessages`: header and
TEXT chunks are accumulated into separate buffers, each run through
`simpleParser`; any parser throw is caught and the message is skipped (the
message promise still resolves); on success the `Mail` record is built with
the uid from the attributes event. -/
def processMessageB (parse : Parser) (now : Nat) (m : MsgEvents) : Option Mail :=
  match parse (((m.chunks.filter (fun c => c.part ≠ PartKind.text)).map Chunk.bytes).flatten : ByteSeq) with
  | .error _ => none
  | .ok parsedHeader =>
    match parse (((m.chunks.filter (fun c => c.part = PartKind.text)).map Chunk.bytes).flatten : ByteSeq) with
    | .error _ => none
    | .ok parsedBody =>
      some
        { uid := m.attrUid.getD 0
          fromAddrs := extractAddresses (some (parsedHeader.fromField.getD (.many [])))
          toAddrs := extractAddresses parsedHeader.toField
          subject := parsedHeader.subject.getD ""
          date := parsedHeader.date.getD now
          plain := parsedBody.text.getD ""
          html := some (parsedBody.html.getD "") }

/-- The messages of a fetch script in decode-completion order. -/
def completedMsgs (s : FetchScript) : List MsgEvents :=
  s.completion.filterMap (fun i => s.msgs.get? i)

/-- Run the per-message tasks of variant B in completion order, threading the
`seenUIDs` set: each successfully decoded message first adds its uid to the
set and is then emitted; a failed decode leaves both untouched.  Returns the
emitted records in emission order and the final set. -/
def runMessagesB (parse : Parser) (now : Nat) :
    List Nat → List MsgEvents → List Mail × List Nat
  | seen, [] => ([], seen)
  | seen, m :: rest =>
    match processMessageB parse now m with
    | none => runMessagesB parse now seen rest
    | some mail =>
      let r := runMessagesB parse now (setAdd seen mail.uid) rest
      (mail :: r.1, r.2)

/-- Result of one variant B cycle: promise outcome, fetch primitive invocation
count, emitted records in emission order, and the `seenUIDs` set afterwards. -/
structure CycleResultB where
  outcome : Except ClientError Unit
  fetchCalls : Nat
  published : List Mail
  seenAfter : List Nat
deriving Repr, DecidableEq

/-- `fetchMessages(uids)` of variant B: one `client.fetch(uids, ...)` call
(the uid list is handed to the engine; the resulting event stream is the
script); each message runs its own end handler, so emission happens per
message, in decode-completion order; a fetch error event rejects the cycle,
but the per-message emissions already scheduled still happen. -/
def fetchMessagesB (parse : Parser) (now : Nat) (seen : List Nat)
    (uids : List Nat) (script : FetchScript) : CycleResultB :=
  { outcome :=
      match script.fetchError with
      | some e => .error (.fetch e)
      | none => .ok ()
    fetchCalls := 1
    published := (runMessagesB parse now seen (completedMsgs script)).1
    seenAfter := (runMessagesB parse now seen (completedMsgs script)).2 }

/-- `getUnseenMails` of variant B: guards on `this.client` and `currentBox`;
search; an empty uid list resolves with no fetch; uids already in `seenUIDs`
are filtered out and an empty remainder also resolves with no fetch; otherwise
`fetchMessages` runs on the filtered list. -/
def getUnseenMailsB (parse : Parser) (now : Nat) (st : StateB)
    (searchResult : Except String (List Nat)) (script : FetchScript) : CycleResultB :=
  if st.clientSet = false then
    { outcome := .error .notConnected, fetchCalls := 0, published := [],
      seenAfter := st.seenUIDs }
  else if st.currentBox.isNone then
    { outcome := .error .noMailbox, fetchCalls := 0, published := [],
      seenAfter := st.seenUIDs }
  else
    match searchResult with
    | .error e =>
      { outcome := .error (.fetch e), fetchCalls := 0, published := [],
        seenAfter := st.seenUIDs }
    | .ok uids =>
      if uids.length = 0 then
        { outcome := .ok (), fetchCalls := 0, published := [],
          seenAfter := st.seenUIDs }
      else
        if (uids.filter (fun uid => !(st.seenUIDs.contains uid))).length = 0 then
          { outcome := .ok (), fetchCalls := 0, published := [],
            seenAfter := st.seenUIDs }
        else
          fetchMessagesB parse now st.seenUIDs
            (uids.filter (fun uid => !(st.seenUIDs.contains uid))) script

/-- The uids of the records a cycle emitted, in emission order. -/
def publishedUids (r : CycleResultB) : List Nat :=
  r.published.map Mail.uid

/-- The client state after a variant B cycle: only `seenUIDs` is mutated. -/
def stateAfterB (st : StateB) (r : CycleResultB) : StateB :=
  { st with seenUIDs := r.seenAfter }

/-! ### Concrete fixtures -/

/-- A decoder that accepts every buffer and returns empty fields. -/
def parseAllOk : Parser := fun _ => .ok ⟨none, none, none, none, none, none⟩

/-- A decoder that throws on the buffer `[9]` and accepts everything else. -/
def parseSelective : Parser :=
  fun bs => if bs = [9] then .error "mime parse failed" else .ok ⟨none, none, none, none, none, none⟩

/-- A sample selection response. -/
def boxEx : Box := ⟨"INBOX", 100, 10, 5⟩

/-- A fetch script with no messages. -/
def emptyScript : FetchScript := ⟨[], [], none⟩

/-- A variant B state fresh out of connect: nothing processed yet. -/
def stFresh : StateB := ⟨true, some boxEx, []⟩

/-- A variant A state fresh out of connect. -/
def connectedEx : ClientStateA := ⟨true, false, some boxEx, 5⟩

/-- Message whose fetch event is observed first, uid 1 (no body chunks). -/
def msgFirst : MsgEvents := ⟨[], some 1⟩

/-- Message whose fetch event is observed second, uid 2. -/
def msgSecond : MsgEvents := ⟨[], some 2⟩

/-- Message whose header bytes make the decoder throw, uid 1. -/
def msgBad : MsgEvents := ⟨[⟨.header, [9]⟩], some 1⟩

/-- Message whose header bytes decode fine, uid 2. -/
def msgGood : MsgEvents := ⟨[⟨.header, [8]⟩], some 2⟩

/-! ### Small facts about the embedded operations -/

theorem processSingleMessage_uid (parse : Parser) (now : Nat) (m : MsgEvents) (mail : Mail)
    (h : processSingleMessage parse now m = .ok mail) : mail.uid = msgUid m := by
  unfold processSingleMessage at h
  split at h
  · cases h
  · cases h; rfl

theorem processMessageB_uid (parse : Parser) (now : Nat) (m : MsgEvents) (mail : Mail)
    (h : processMessageB parse now m = some mail) : mail.uid = msgUid m := by
  unfold processMessageB at h
  split at h
  · cases h
  · split at h
    · cases h
    · cases h; rfl

theorem setAdd_mem (s : List Nat) (u v : Nat) (h : v ∈ s) : v ∈ setAdd s u := by
  unfold setAdd
  split
  · exact h
  · exact List.mem_append.2 (Or.inl h)

theorem setAdd_self (s : List Nat) (u : Nat) : u ∈ setAdd s u := by
  unfold setAdd
  split
  · next hc => simpa using hc
  · exact List.mem_append.2 (Or.inr (List.mem_singleton.2 rfl))

theorem setAdd_src (s : List Nat) (u v : Nat) (h : v ∈ setAdd s u) : v ∈ s ∨ v = u := by
  unfold setAdd at h
  split at h
  · exact Or.inl h
  · rcases List.mem_append.1 h with h' | h'
    · exact Or.inl h'
    · exact Or.inr (List.mem_singleton.1 h')

theorem runMessagesB_seen_mono (parse : Parser) (now : Nat) (l : List MsgEvents) :
    ∀ (seen : List Nat) (u : Nat), u ∈ seen → u ∈ (runMessagesB parse now seen l).2 := by
  induction l with
  | nil => intro seen u h; exact h
  | cons m rest ih =>
    intro seen u h
    unfold runMessagesB
    cases hp : processMessageB parse now m with
    | none => exact ih seen u h
    | some mail => exact ih (setAdd seen mail.uid) u (setAdd_mem _ _ _ h)

theorem runMessagesB_published_in_seen (parse : Parser) (now : Nat) (l : List MsgEvents) :
    ∀ (seen : List Nat) (u : Nat), u ∈ (runMessagesB parse now seen l).1.map Mail.uid →
      u ∈ (runMessagesB parse now seen l).2 := by
  induction l with
  | nil => intro seen u h; simp [runMessagesB] at h
  | cons m rest ih =>
    intro seen u h
    unfold runMessagesB at h ⊢
    cases hp : processMessageB parse now m with
    | none =>
      rw [hp] at h
      exact ih seen u h
    | some mail =>
      rw [hp] at h
      have h' : u ∈ (mail :: (runMessagesB parse now (setAdd seen mail.uid) rest).1).map Mail.uid := h
      show u ∈ (runMessagesB parse now (setAdd seen mail.uid) rest).2
      simp only [List.map_cons, List.mem_cons] at h'
      rcases h' with h' | h'
      · subst h'
        exact runMessagesB_seen_mono parse now rest _ _ (setAdd_self _ _)
      · exact ih _ u h'

theorem runMessagesB_published_src (parse : Parser) (now : Nat) (l : List MsgEvents) :
    ∀ (seen : List Nat) (u : Nat), u ∈ (runMessagesB parse now seen l).1.map Mail.uid →
      ∃ m ∈ l, msgUid m = u := by
  induction l with
  | nil => intro seen u h; simp [runMessagesB] at h
  | cons m rest ih =>
    intro seen u h
    unfold runMessagesB at h
    cases hp : processMessageB parse now m with
    | none =>
      rw [hp] at h
      obtain ⟨m', hm', hu⟩ := ih seen u h
      exact ⟨m', List.mem_cons_of_mem _ hm', hu⟩
    | some mail =>
      rw [hp] at h
      have h' : u ∈ (mail :: (runMessagesB parse now (setAdd seen mail.uid) rest).1).map Mail.uid := h
      simp only [List.map_cons, List.mem_cons] at h'
      rcases h' with h' | h'
      · exact ⟨m, List.mem_cons_self _ _, by rw [← processMessageB_uid parse now m mail hp, h']⟩
      · obtain ⟨m', hm', hu⟩ := ih _ u h'
        exact ⟨m', List.mem_cons_of_mem _ hm', hu⟩

theorem runMessagesB_seen_src (parse : Parser) (now : Nat) (l : List MsgEvents) :
    ∀ (seen : List Nat) (u : Nat), u ∈ (runMessagesB parse now seen l).2 →
      u ∈ seen ∨ ∃ m ∈ l, ∃ mail, processMessageB parse now m = some mail ∧ mail.uid = u := by
  induction l with
  | nil => intro seen u h; exact Or.inl h
  | cons m rest ih =>
    intro seen u h
    unfold runMessagesB at h
    cases hp : processMessageB parse now m with
    | none =>
      rw [hp] at h
      rcases ih seen u h with h' | ⟨m', hm', mail', hpm', hu'⟩
      · exact Or.inl h'
      · exact Or.inr ⟨m', List.mem_cons_of_mem _ hm', mail', hpm', hu'⟩
    | some mail =>
      rw [hp] at h
      have h2 : u ∈ (runMessagesB parse now (setAdd seen mail.uid) rest).2 := h
      rcases ih _ u h2 with h' | ⟨m', hm', mail', hpm', hu'⟩
      · rcases setAdd_src _ _ _ h' with h'' | h''
        · exact Or.inl h''
        · exact Or.inr ⟨m, List.mem_cons_self _ _, mail, hp, h''.symm⟩
      · exact Or.inr ⟨m', List.mem_cons_of_mem _ hm', mail', hpm', hu'⟩

theorem completedMsgs_subset (s : FetchScript) (m : MsgEvents) (h : m ∈ completedMsgs s) :
    m ∈ s.msgs := by
  unfold completedMsgs at h
  obtain ⟨i, _, hi⟩ := List.mem_filterMap.1 h
  exact List.get?_mem hi

theorem getUnseenMailsB_guard_client (parse : Parser) (now : Nat) (st : StateB)
    (sr : Except String (List Nat)) (script : FetchScript) (h1 : st.clientSet = false) :
    getUnseenMailsB parse now st sr script =
      { outcome := .error .notConnected, fetchCalls := 0, published := [],
        seenAfter := st.seenUIDs } := by
  unfold getUnseenMailsB
  rw [if_pos h1]

theorem getUnseenMailsB_guard_box (parse : Parser) (now : Nat) (st : StateB)
    (sr : Except String (List Nat)) (script : FetchScript)
    (h1 : ¬st.clientSet = false) (h2 : st.currentBox.isNone = true) :
    getUnseenMailsB parse now st sr script =
      { outcome := .error .noMailbox, fetchCalls := 0, published := [],
        seenAfter := st.seenUIDs } := by
  unfold getUnseenMailsB
  rw [if_neg h1, if_pos h2]

theorem getUnseenMailsB_search_error (parse : Parser) (now : Nat) (st : StateB)
    (e : String) (script : FetchScript)
    (h1 : ¬st.clientSet = false) (h2 : ¬st.currentBox.isNone = true) :
    getUnseenMailsB parse now st (.error e) script =
      { outcome := .error (.fetch e), fetchCalls := 0, published := [],
        seenAfter := st.seenUIDs } := by
  unfold getUnseenMailsB
  rw [if_neg h1, if_neg h2]

theorem getUnseenMailsB_ok_eq (parse : Parser) (now : Nat) (st : StateB)
    (uids : List Nat) (script : FetchScript)
    (h1 : ¬st.clientSet = false) (h2 : ¬st.currentBox.isNone = true) :
    getUnseenMailsB parse now st (.ok uids) script =
      if uids.length = 0 then
        { outcome := .ok (), fetchCalls := 0, published := [], seenAfter := st.seenUIDs }
      else if (uids.filter (fun uid => !(st.seenUIDs.contains uid))).length = 0 then
        { outcome := .ok (), fetchCalls := 0, published := [], seenAfter := st.seenUIDs }
      else
        fetchMessagesB parse now st.seenUIDs
          (uids.filter (fun uid => !(st.seenUIDs.contains uid))) script := by
  unfold getUnseenMailsB
  rw [if_neg h1, if_neg h2]

/-- Every code path of variant B `getUnseenMails` either short-circuits with
nothing published and `seenUIDs` untouched, or hands over to `fetchMessages`
on the current `seenUIDs` set with the filtered uid list. -/
theorem getUnseenMailsB_cases (parse : Parser) (now : Nat) (st : StateB)
    (sr : Except String (List Nat)) (script : FetchScript) :
    ((getUnseenMailsB parse now st sr script).published = [] ∧
      (getUnseenMailsB parse now st sr script).seenAfter = st.seenUIDs) ∨
    ∃ uids, sr = .ok uids ∧
      getUnseenMailsB parse now st sr script =
        fetchMessagesB parse now st.seenUIDs
          (uids.filter (fun uid => !(st.seenUIDs.contains uid))) script := by
  by_cases h1 : st.clientSet = false
  · rw [getUnseenMailsB_guard_client parse now st sr script h1]
    exact Or.inl ⟨rfl, rfl⟩
  · by_cases h2 : st.currentBox.isNone = true
    · rw [getUnseenMailsB_guard_box parse now st sr script h1 h2]
      exact Or.inl ⟨rfl, rfl⟩
    · cases sr with
      | error e =>
        rw [getUnseenMailsB_search_error parse now st e script h1 h2]
        exact Or.inl ⟨rfl, rfl⟩
      | ok uids =>
        rw [getUnseenMailsB_ok_eq parse now st uids script h1 h2]
        by_cases h3 : uids.length = 0
        · rw [if_pos h3]; exact Or.inl ⟨rfl, rfl⟩
        · rw [if_neg h3]
          by_cases h4 : (uids.filter (fun uid => !(st.seenUIDs.contains uid))).length = 0
          · rw [if_pos h4]; exact Or.inl ⟨rfl, rfl⟩
          · rw [if_neg h4]; exact Or.inr ⟨uids, rfl, rfl⟩

theorem fetchMessagesB_published_in_seen (parse : Parser) (now : Nat) (seen : List Nat)
    (uids : List Nat) (script : FetchScript) (u : Nat)
    (h : u ∈ publishedUids (fetchMessagesB parse now seen uids script)) :
    u ∈ (fetchMessagesB parse now seen uids script).seenAfter :=
  runMessagesB_published_in_seen parse now (completedMsgs script) seen u h

theorem fetchMessagesB_published_src (parse : Parser) (now : Nat) (seen : List Nat)
    (uids : List Nat) (script : FetchScript) (u : Nat)
    (h : u ∈ publishedUids (fetchMessagesB parse now seen uids script)) :
    ∃ m ∈ script.msgs, msgUid m = u := by
  obtain ⟨m, hm, hu⟩ := runMessagesB_published_src parse now (completedMsgs script) seen u h
  exact ⟨m, completedMsgs_subset script m hm, hu⟩

theorem cycleB_published_in_seenAfter (parse : Parser) (now : Nat) (st : StateB)
    (sr : Except String (List Nat)) (script : FetchScript) (u : Nat)
    (h : u ∈ publishedUids (getUnseenMailsB parse now st sr script)) :
    u ∈ (getUnseenMailsB parse now st sr script).seenAfter := by
  rcases getUnseenMailsB_cases parse now st sr script with ⟨hp, _⟩ | ⟨uids, _, heq⟩
  · rw [publishedUids, hp] at h; simp at h
  · rw [heq] at h ⊢
    exact fetchMessagesB_published_in_seen parse now st.seenUIDs _ script u h

/-! ### Claim theorems -/

/-- C1 — refuted by evaluation: a fetch cycle yields N = 1 record, yet the
subscriber registered through `on("mail", handler)` is invoked twice for it:
once through the EventEmitter registry and once through the `mailListeners`
array, because `on` registers the handler in both and the publish loop runs
both.  The claim requires exactly N invocations. -/
theorem mail_handler_invoked_twice_per_record :
    (getUnseenMailsA parseAllOk 0 true (.ok [1]) ⟨[msgFirst], [0], none⟩).published.length = 1 ∧
    invocationCount (onMail ⟨[], []⟩ "handler")
      (getUnseenMailsA parseAllOk 0 true (.ok [1]) ⟨[msgFirst], [0], none⟩).published
      "handler" = 2 := by
  exact ⟨rfl, rfl⟩

/-- C3 — counterexample: two messages observed by the fetch in the order
uid 1 then uid 2, whose decode tasks complete in the reverse order, are
published by the variant B cycle as [2, 1]: publish order follows
decode-completion order, not fetch-event order. -/
theorem publish_order_follows_completion_cex :
    (⟨[msgFirst, msgSecond], [1, 0], none⟩ : FetchScript).msgs.map msgUid = [1, 2] ∧
    ([1, 0] : List Nat).Perm (List.range 2) ∧
    publishedUids (getUnseenMailsB parseAllOk 0 stFresh (.ok [1, 2])
      ⟨[msgFirst, msgSecond], [1, 0], none⟩) = [2, 1] := by
  refine ⟨rfl, by decide, rfl⟩

theorem promiseAll_cons_error {ε α : Type} (e : ε) (xs : List (Except ε α)) :
    promiseAll (Except.error e :: xs) = .error e := rfl

theorem promiseAll_cons_ok {ε α : Type} (a : α) (xs : List (Except ε α)) :
    promiseAll (Except.ok a :: xs) =
      match promiseAll xs with
      | .error e => .error e
      | .ok rest => .ok (a :: rest) := rfl

theorem promiseAll_map_uids (parse : Parser) (now : Nat) :
    ∀ (l : List MsgEvents) (mails : List Mail),
      promiseAll (l.map (processSingleMessage parse now)) = .ok mails →
      mails.map Mail.uid = l.map msgUid := by
  intro l
  induction l with
  | nil =>
    intro mails h
    cases h
    rfl
  | cons m rest ih =>
    intro mails h
    simp only [List.map_cons] at h
    cases hp : processSingleMessage parse now m with
    | error e => rw [hp, promiseAll_cons_error] at h; cases h
    | ok mail =>
      rw [hp, promiseAll_cons_ok] at h
      cases hr : promiseAll (rest.map (processSingleMessage parse now)) with
      | error e => rw [hr] at h; cases h
      | ok rest' =>
        rw [hr] at h
        cases h
        simp only [List.map_cons]
        rw [processSingleMessage_uid parse now m mail hp, ih rest' hr]

/-- Unfolding of the variant A cycle for a connected client and a successful
search. -/
theorem getUnseenMailsA_ok_eq (parse : Parser) (now : Nat) (uids : List Nat)
    (script : FetchScript) :
    getUnseenMailsA parse now true (.ok uids) script =
      if uids.length = 0 then
        { outcome := .ok (), fetchCalls := 0, published := [] }
      else
        match script.fetchError with
        | some e => { outcome := .error (.fetch e), fetchCalls := 1, published := [] }
        | none =>
          match promiseAll (script.msgs.map (processSingleMessage parse now)) with
          | .error e => { outcome := .error (.decode e), fetchCalls := 1, published := [] }
          | .ok mails => { outcome := .ok (), fetchCalls := 1, published := mails } := by
  rfl

/-- C3 — amended part: in both `src/client.ts` cycles (`getUnseenMails` and
`fetchNewMessages`) the publish order is the fetch message-event order and is
independent of the decode-completion schedule, because `Promise.all` collects
the per-message results by array index and the publish loop runs over that
array. -/
theorem getUnseenMailsA_publishes_in_fetch_order (parse : Parser) (now : Nat)
    (uids : List Nat) (msgs : List MsgEvents) (c c' : List Nat) (b numNew : Nat)
    (hne : uids.length ≠ 0) :
    getUnseenMailsA parse now true (.ok uids) ⟨msgs, c, none⟩ =
      getUnseenMailsA parse now true (.ok uids) ⟨msgs, c', none⟩ ∧
    fetchNewMessages parse now true b numNew ⟨msgs, c, none⟩ =
      fetchNewMessages parse now true b numNew ⟨msgs, c', none⟩ ∧
    ∀ mails, promiseAll (msgs.map (processSingleMessage parse now)) = .ok mails →
      (getUnseenMailsA parse now true (.ok uids) ⟨msgs, c, none⟩).published.map Mail.uid =
        msgs.map msgUid ∧
      (fetchNewMessages parse now true b numNew ⟨msgs, c, none⟩).published.map Mail.uid =
        msgs.map msgUid := by
  refine ⟨rfl, rfl, ?_⟩
  intro mails hall
  constructor
  · rw [getUnseenMailsA_ok_eq parse now uids ⟨msgs, c, none⟩, if_neg hne]
    show (match promiseAll (msgs.map (processSingleMessage parse now)) with
      | Except.error e =>
        ({ outcome := .error (.decode e), fetchCalls := 1, published := [] } : CycleResultA)
      | Except.ok mails =>
        { outcome := .ok (), fetchCalls := 1, published := mails }).published.map Mail.uid =
      msgs.map msgUid
    rw [hall]
    exact promiseAll_map_uids parse now msgs mails hall
  · unfold fetchNewMessages
    rw [if_neg (by simp)]
    show (match promiseAll (msgs.map (processSingleMessage parse now)) with
      | Except.error e =>
        ({ outcome := .error (.decode e), range := some (b + 1, b + numNew),
           numMessagesAfter := b, published := [] } : PushResultA)
      | Except.ok mails =>
        { outcome := .ok (), range := some (b + 1, b + numNew),
          numMessagesAfter := b + numNew, published := mails }).published.map Mail.uid =
      msgs.map msgUid
    rw [hall]
    exact promiseAll_map_uids parse now msgs mails hall

/-- C3 witness for the amended theorem: both cycles publish [1, 2] for fetch
order [1, 2] even though the decode tasks complete in the reverse order. -/
theorem getUnseenMailsA_publishes_in_fetch_order_witness :
    (getUnseenMailsA parseAllOk 0 true (.ok [5, 6]) ⟨[msgFirst, msgSecond], [1, 0], none⟩).published.map Mail.uid
      = [1, 2] ∧
    (fetchNewMessages parseAllOk 0 true 10 2 ⟨[msgFirst, msgSecond], [1, 0], none⟩).published.map Mail.uid
      = [1, 2] :=
  (getUnseenMailsA_publishes_in_fetch_order parseAllOk 0 [5, 6] [msgFirst, msgSecond]
    [1, 0] [0, 1] 10 2 (by decide)).2.2 _ rfl

/-- C4 — evaluated at the failing input: a batch of two messages where the
first message decode throws and the second succeeds.  Both `src/client.ts`
cycles reject the whole batch through `Promise.all` and publish nothing —
the successfully decoded second message is lost — while the per-message
handling of the other variant publishes exactly the surviving uid 2. -/
theorem decode_failure_aborts_whole_batch_eval :
    (getUnseenMailsA parseSelective 0 true (.ok [1, 2]) ⟨[msgBad, msgGood], [0, 1], none⟩).outcome
      = .error (.decode "mime parse failed") ∧
    (getUnseenMailsA parseSelective 0 true (.ok [1, 2]) ⟨[msgBad, msgGood], [0, 1], none⟩).published
      = [] ∧
    (fetchNewMessages parseSelective 0 true 0 2 ⟨[msgBad, msgGood], [0, 1], none⟩).outcome
      = .error (.decode "mime parse failed") ∧
    (fetchNewMessages parseSelective 0 true 0 2 ⟨[msgBad, msgGood], [0, 1], none⟩).published
      = [] ∧
    publishedUids (fetchMessagesB parseSelective 0 [] [1, 2] ⟨[msgBad, msgGood], [0, 1], none⟩)
      = [2] := by
  exact ⟨rfl, rfl, rfl, rfl, rfl⟩

/-- C5 — counterexample: on a connected client, `close()` resolves, and a
subsequent `getUnseenMails` resolves as a silent no-op (the engine still
answering the search with an empty result), and `switchMailbox` resolves as
well: neither operation fails with the `notConnected` error, because `close`
never clears `this.client` and the guard checks only that field. -/
theorem close_then_mutating_ops_cex :
    (close connectedEx).2 = .ok () ∧
    (close connectedEx).1.clientSet = true ∧
    (getUnseenMailsA parseAllOk 0 (close connectedEx).1.clientSet (.ok []) emptyScript).outcome
      = .ok () ∧
    (switchMailbox (.ok boxEx) (close connectedEx).1.currentBox).1 = .ok boxEx := by
  exact ⟨rfl, rfl, rfl, rfl⟩

/-- C5 — amended: `close()` always resolves and leaves the client handle set,
so the `notConnected` guard can never fire afterwards: `getUnseenMails` and
`switchMailbox` after `close` are handed to the engine, and their outcome is
whatever the engine response script dictates — never the `notConnected`
error. -/
theorem close_never_triggers_notConnected (st : ClientStateA)
    (hclient : st.clientSet = true) (parse : Parser) (now : Nat)
    (sr : Except String (List Nat)) (script : FetchScript)
    (boxResp : Except String Box) :
    (close st).2 = .ok () ∧
    (close st).1.clientSet = true ∧
    (getUnseenMailsA parse now (close st).1.clientSet sr script).outcome
      ≠ .error .notConnected ∧
    (switchMailbox boxResp (close st).1.currentBox).1 ≠ .error .notConnected := by
  refine ⟨rfl, hclient, ?_, ?_⟩
  · show (getUnseenMailsA parse now st.clientSet sr script).outcome ≠ .error .notConnected
    rw [hclient]
    unfold getUnseenMailsA
    rw [if_neg (by simp)]
    cases sr with
    | error e => simp
    | ok uids =>
      show (if uids.length = 0 then
          ({ outcome := .ok (), fetchCalls := 0, published := [] } : CycleResultA)
        else
          match script.fetchError with
          | some e => { outcome := .error (.fetch e), fetchCalls := 1, published := [] }
          | none =>
            match promiseAll (script.msgs.map (processSingleMessage parse now)) with
            | .error e => { outcome := .error (.decode e), fetchCalls := 1, published := [] }
            | .ok mails =>
              { outcome := .ok (), fetchCalls := 1, published := mails }).outcome
        ≠ .error .notConnected
      by_cases h0 : uids.length = 0
      · rw [if_pos h0]; simp
      · rw [if_neg h0]
        cases script.fetchError with
        | some e => simp
        | none =>
          cases promiseAll (script.msgs.map (processSingleMessage parse now)) with
          | error e => simp
          | ok mails => simp
  · cases boxResp with
    | error e => simp [switchMailbox]
    | ok box => simp [switchMailbox]

/-- C5 amended claim witness. -/
theorem close_never_triggers_notConnected_witness :
    (getUnseenMailsA parseAllOk 0 (close connectedEx).1.clientSet (.error "socket closed")
      emptyScript).outcome ≠ .error .notConnected ∧
    (switchMailbox (.error "socket closed") (close connectedEx).1.currentBox).1
      ≠ .error .notConnected :=
  ⟨(close_never_triggers_notConnected connectedEx rfl parseAllOk 0 (.error "socket closed")
      emptyScript (.error "socket closed")).2.2.1,
   (close_never_triggers_notConnected connectedEx rfl parseAllOk 0 (.error "socket closed")
      emptyScript (.error "socket closed")).2.2.2⟩

/-- C6: on a push notification of `numNew` messages with baseline `b`, the
handler fetches exactly the sequence range from `b + 1` to `b + numNew`; the
baseline is advanced by `numNew` only when the cycle resolves, and any
rejecting cycle leaves it unchanged. -/
theorem fetchNewMessages_range_and_baseline (parse : Parser) (now : Nat)
    (b numNew : Nat) (script : FetchScript) :
    (fetchNewMessages parse now true b numNew script).range = some (b + 1, b + numNew) ∧
    ((fetchNewMessages parse now true b numNew script).outcome = .ok () →
      (fetchNewMessages parse now true b numNew script).numMessagesAfter = b + numNew) ∧
    (∀ e, (fetchNewMessages parse now true b numNew script).outcome = .error e →
      (fetchNewMessages parse now true b numNew script).numMessagesAfter = b) := by
  unfold fetchNewMessages
  rw [if_neg (by simp)]
  cases hf : script.fetchError with
  | some e =>
    refine ⟨rfl, ?_, ?_⟩
    · intro h; simp at h
    · intro e' h; rfl
  | none =>
    cases hall : promiseAll (script.msgs.map (processSingleMessage parse now)) with
    | error e =>
      refine ⟨rfl, ?_, ?_⟩
      · intro h; simp at h
      · intro e' h; rfl
    | ok mails =>
      refine ⟨rfl, ?_, ?_⟩
      · intro h; rfl
      · intro e' h; simp at h

/-- C6 witness: baseline 10, three new messages — the fetched range is
[11, 13]; a succeeding cycle advances the baseline to 13 and a failing fetch
leaves it at 10. -/
theorem fetchNewMessages_range_and_baseline_witness :
    (fetchNewMessages parseAllOk 0 true 10 3 ⟨[msgFirst], [0], none⟩).range = some (11, 13) ∧
    (fetchNewMessages parseAllOk 0 true 10 3 ⟨[msgFirst], [0], none⟩).numMessagesAfter = 13 ∧
    (fetchNewMessages parseAllOk 0 true 10 3 ⟨[], [], some "broken pipe"⟩).numMessagesAfter = 10 :=
  ⟨(fetchNewMessages_range_and_baseline parseAllOk 0 10 3 ⟨[msgFirst], [0], none⟩).1,
   (fetchNewMessages_range_and_baseline parseAllOk 0 10 3 ⟨[msgFirst], [0], none⟩).2.1 rfl,
   (fetchNewMessages_range_and_baseline parseAllOk 0 10 3 ⟨[], [], some "broken pipe"⟩).2.2
     (.fetch "broken pipe") rfl⟩

/-- C7: `create` rejects with the connection error when the engine emits an
error before ready and never reaches ok; after a successful handshake a
failing mailbox selection rejects with the mailbox error; and an ok result
exists only when both the ready event and the selection success occurred,
with the state populated from the selected box. -/
theorem create_outcomes (s : ConnectScript) :
    (∀ e, s.handshake = .error e → create s = .error (.connection e)) ∧
    (∀ e, s.handshake = .ok () → s.boxResp = .error e → create s = .error (.mailbox e)) ∧
    (∀ st, create s = .ok st → s.handshake = .ok () ∧
      ∃ box, s.boxResp = .ok box ∧ st.currentBox = some box ∧ st.numMessages = box.total) := by
  obtain ⟨hs, br⟩ := s
  refine ⟨?_, ?_, ?_⟩
  · intro e he
    cases he
    rfl
  · intro e hh hb
    cases hh
    cases hb
    rfl
  · intro st hok
    cases hs with
    | error e => cases hok
    | ok u =>
      cases br with
      | error e => cases hok
      | ok box =>
        cases hok
        exact ⟨rfl, box, rfl, rfl, rfl⟩

/-- C7 witness: a refused handshake yields the connection error; a denied
selection after a successful handshake yields the mailbox error; a successful
script yields a ready state populated from the box. -/
theorem create_outcomes_witness :
    create ⟨.error "auth refused", .ok boxEx⟩ = .error (.connection "auth refused") ∧
    create ⟨.ok (), .error "no such mailbox"⟩ = .error (.mailbox "no such mailbox") ∧
    ∃ box, (⟨.ok (), .ok boxEx⟩ : ConnectScript).boxResp = .ok box ∧
      (⟨true, false, some boxEx, boxEx.total⟩ : ClientStateA).currentBox = some box ∧
      (⟨true, false, some boxEx, boxEx.total⟩ : ClientStateA).numMessages = box.total :=
  ⟨(create_outcomes ⟨.error "auth refused", .ok boxEx⟩).1 "auth refused" rfl,
   (create_outcomes ⟨.ok (), .error "no such mailbox"⟩).2.1 "no such mailbox" rfl rfl,
   ((create_outcomes ⟨.ok (), .ok boxEx⟩).2.2 ⟨true, false, some boxEx, boxEx.total⟩ rfl).2⟩

/-- Messages with uids 3 and 4, no body chunks. -/
def msgThird : MsgEvents := ⟨[], some 3⟩

/-- Message with uid 4. -/
def msgFourth : MsgEvents := ⟨[], some 4⟩

/-- First dedup scenario fetch: three messages with uids 1, 2, 3. -/
def dedupS1 : FetchScript := ⟨[msgFirst, msgSecond, msgThird], [0, 1, 2], none⟩

/-- Second dedup scenario fetch: one message with uid 4. -/
def dedupS2 : FetchScript := ⟨[msgFourth], [0], none⟩

/-- A variant B state whose processed set already holds 1, 2, 3. -/
def stSeen123 : StateB := ⟨true, some boxEx, [1, 2, 3]⟩

/-- Second-scan fetch for the stateless `src/client.ts` client: the engine
returns all four still-unseen messages (the fetches use `markSeen: false`,
so uids 1, 2, 3 are still unseen on the server). -/
def rescanS2A : FetchScript := ⟨[msgFirst, msgSecond, msgThird, msgFourth], [0, 1, 2, 3], none⟩

/-- C2 — counterexample: the `src/client.ts` `getUnseenMails` keeps no
processed-identifier set and mutates no client state, so in the claim's own
scenario — first scan publishes uids 1, 2, 3; the second search again returns
[1, 2, 3, 4] — the second scan re-publishes uids 1, 2 and 3 instead of only
uid 4. -/
theorem getUnseenMailsA_republishes_cex :
    (getUnseenMailsA parseAllOk 0 true (.ok [1, 2, 3]) dedupS1).published.map Mail.uid
      = [1, 2, 3] ∧
    (getUnseenMailsA parseAllOk 0 true (.ok [1, 2, 3, 4]) rescanS2A).published.map Mail.uid
      = [1, 2, 3, 4] := by
  exact ⟨rfl, rfl⟩

/-- C8: a search that returns no uids resolves both variants successfully with
zero fetch-primitive calls and zero published records. -/
theorem empty_search_resolves_without_fetch (parse : Parser) (now : Nat)
    (scriptA scriptB : FetchScript) (st : StateB)
    (hclient : st.clientSet = true) (hbox : st.currentBox.isSome = true) :
    getUnseenMailsA parse now true (.ok []) scriptA =
      { outcome := .ok (), fetchCalls := 0, published := [] } ∧
    getUnseenMailsB parse now st (.ok []) scriptB =
      { outcome := .ok (), fetchCalls := 0, published := [], seenAfter := st.seenUIDs } := by
  have h1 : ¬st.clientSet = false := by rw [hclient]; simp
  have h2 : ¬st.currentBox.isNone = true := by
    rw [Option.isNone_iff_eq_none]
    intro hnone
    rw [hnone] at hbox
    simp at hbox
  constructor
  · rfl
  · rw [getUnseenMailsB_ok_eq parse now st [] scriptB h1 h2]
    rfl

/-- C8 witness. -/
theorem empty_search_resolves_without_fetch_witness :
    getUnseenMailsA parseAllOk 0 true (.ok []) emptyScript =
      { outcome := .ok (), fetchCalls := 0, published := [] } ∧
    getUnseenMailsB parseAllOk 0 stFresh (.ok []) emptyScript =
      { outcome := .ok (), fetchCalls := 0, published := [], seenAfter := [] } :=
  empty_search_resolves_without_fetch parseAllOk 0 emptyScript emptyScript stFresh rfl rfl

/-- C9: a non-empty search result whose uids are all already in `seenUIDs`
short-circuits exactly like the empty result: success, no fetch call, nothing
published, set untouched. -/
theorem all_seen_search_resolves_without_fetch (parse : Parser) (now : Nat)
    (st : StateB) (uids : List Nat) (script : FetchScript)
    (hclient : st.clientSet = true) (hbox : st.currentBox.isSome = true)
    (hne : uids ≠ []) (hall : ∀ u ∈ uids, st.seenUIDs.contains u = true) :
    getUnseenMailsB parse now st (.ok uids) script =
      { outcome := .ok (), fetchCalls := 0, published := [], seenAfter := st.seenUIDs } := by
  have h1 : ¬st.clientSet = false := by rw [hclient]; simp
  have h2 : ¬st.currentBox.isNone = true := by
    rw [Option.isNone_iff_eq_none]
    intro hnone
    rw [hnone] at hbox
    simp at hbox
  have hfilter : uids.filter (fun uid => !(st.seenUIDs.contains uid)) = [] := by
    rw [List.filter_eq_nil_iff]
    intro a ha
    rw [hall a ha]
    simp
  rw [getUnseenMailsB_ok_eq parse now st uids script h1 h2,
    if_neg (by rw [List.length_eq_zero]; exact hne), if_pos (by rw [hfilter]; rfl)]

/-- C9 witness: search returns [1, 2, 3] while all three are recorded. -/
theorem all_seen_search_resolves_without_fetch_witness :
    getUnseenMailsB parseAllOk 0 stSeen123 (.ok [1, 2, 3]) emptyScript =
      { outcome := .ok (), fetchCalls := 0, published := [], seenAfter := [1, 2, 3] } :=
  all_seen_search_resolves_without_fetch parseAllOk 0 stSeen123 [1, 2, 3] emptyScript
    rfl rfl (by decide) (by decide)

/-- C2 — amended part: across two successive scans of the `seenUIDs` client
(the part_004 variant), a uid published by the first scan is never published
again by the second, provided the engine fetch of the second scan returns
only messages for the uids the client actually requested (the search result
filtered against the `seenUIDs` set after the first scan). -/
theorem getUnseenMails_dedup_across_scans (parse : Parser) (now : Nat) (st : StateB)
    (sr1 sr2 : List Nat) (s1 s2 : FetchScript)
    (hmsgs : ∀ m ∈ s2.msgs,
      msgUid m ∈ sr2.filter (fun u =>
        !((getUnseenMailsB parse now st (.ok sr1) s1).seenAfter.contains u))) :
    ∀ u ∈ publishedUids (getUnseenMailsB parse now st (.ok sr1) s1),
      u ∉ publishedUids (getUnseenMailsB parse now
        (stateAfterB st (getUnseenMailsB parse now st (.ok sr1) s1)) (.ok sr2) s2) := by
  intro u hu hcontra
  have h1 : u ∈ (getUnseenMailsB parse now st (.ok sr1) s1).seenAfter :=
    cycleB_published_in_seenAfter parse now st (.ok sr1) s1 u hu
  rcases getUnseenMailsB_cases parse now
      (stateAfterB st (getUnseenMailsB parse now st (.ok sr1) s1)) (.ok sr2) s2 with
    ⟨hp, _⟩ | ⟨uids, hok, heq⟩
  · rw [publishedUids, hp] at hcontra
    simp at hcontra
  · injection hok with huids
    subst huids
    rw [heq] at hcontra
    obtain ⟨m, hm, hmu⟩ := fetchMessagesB_published_src parse now _ _ s2 u hcontra
    have hin := hmsgs m hm
    rw [hmu] at hin
    have hc := (List.mem_filter.1 hin).2
    rw [Bool.not_eq_true'] at hc
    have hnot : u ∉ (getUnseenMailsB parse now st (.ok sr1) s1).seenAfter := by
      simpa using hc
    exact hnot h1

/-- C2 witness: first scan publishes uids 1, 2, 3; the second search returns
[1, 2, 3, 4] and its fetch returns only uid 4 — uid 1 is published by the
first scan and not by the second. -/
theorem getUnseenMails_dedup_across_scans_witness :
    (1 : Nat) ∈ publishedUids (getUnseenMailsB parseAllOk 0 stFresh (.ok [1, 2, 3]) dedupS1) ∧
    (1 : Nat) ∉ publishedUids (getUnseenMailsB parseAllOk 0
      (stateAfterB stFresh (getUnseenMailsB parseAllOk 0 stFresh (.ok [1, 2, 3]) dedupS1))
      (.ok [1, 2, 3, 4]) dedupS2) :=
  ⟨by decide,
   getUnseenMails_dedup_across_scans parseAllOk 0 stFresh [1, 2, 3] [1, 2, 3, 4]
     dedupS1 dedupS2 (by decide) 1 (by decide)⟩

/-- C10: a uid not yet in `seenUIDs` whose messages all fail MIME decoding is
not recorded into `seenUIDs` by the cycle — the set is extended only on the
success path, right before the emit — so the uid still survives the dedup
filter of any later scan whose search returns it. -/
theorem decode_failure_leaves_uid_unseen (parse : Parser) (now : Nat) (st : StateB)
    (uids : List Nat) (script : FetchScript) (u : Nat)
    (hu : u ∉ st.seenUIDs)
    (hfail : ∀ m ∈ script.msgs, msgUid m = u → processMessageB parse now m = none) :
    u ∉ (getUnseenMailsB parse now st (.ok uids) script).seenAfter ∧
    ∀ uids2 : List Nat, u ∈ uids2 →
      u ∈ uids2.filter (fun v =>
        !((getUnseenMailsB parse now st (.ok uids) script).seenAfter.contains v)) := by
  have hmain : u ∉ (getUnseenMailsB parse now st (.ok uids) script).seenAfter := by
    rcases getUnseenMailsB_cases parse now st (.ok uids) script with ⟨_, hseen⟩ | ⟨uids', hok, heq⟩
    · rw [hseen]; exact hu
    · rw [heq]
      intro hmem
      rcases runMessagesB_seen_src parse now (completedMsgs script) st.seenUIDs u hmem with
        h | ⟨m, hm, mail, hpm, huid⟩
      · exact hu h
      · have humid : msgUid m = u := by
          rw [← processMessageB_uid parse now m mail hpm, huid]
        have hnone := hfail m (completedMsgs_subset script m hm) humid
        rw [hnone] at hpm
        cases hpm
  refine ⟨hmain, ?_⟩
  intro uids2 h2
  rw [List.mem_filter]
  refine ⟨h2, ?_⟩
  simpa using hmain

/-- C10 witness: uid 1 only appears as the message whose decode throws; it is
absent from `seenAfter` and survives the dedup filter of a later search
returning [1, 3]. -/
theorem decode_failure_leaves_uid_unseen_witness :
    (1 : Nat) ∉ (getUnseenMailsB parseSelective 0 stFresh (.ok [1, 2])
      ⟨[msgBad, msgGood], [0, 1], none⟩).seenAfter ∧
    (1 : Nat) ∈ ([1, 3] : List Nat).filter (fun v =>
      !((getUnseenMailsB parseSelective 0 stFresh (.ok [1, 2])
        ⟨[msgBad, msgGood], [0, 1], none⟩).seenAfter.contains v)) :=
  ⟨(decode_failure_leaves_uid_unseen parseSelective 0 stFresh [1, 2]
      ⟨[msgBad, msgGood], [0, 1], none⟩ 1 (by decide) (by decide)).1,
   (decode_failure_leaves_uid_unseen parseSelective 0 stFresh [1, 2]
      ⟨[msgBad, msgGood], [0, 1], none⟩ 1 (by decide) (by decide)).2 [1, 3] (by decide)⟩
